import Mathlib

/-!
Verification of the parallel backfill ingestion pipeline
(scripts/ingest/backfill_parallel.py) against its specification.

The Python code is shallowly embedded: JSON values decoded from input lines
become the inductive type `PyVal`; Python operations that can raise become
functions into `Except PyErr _`; the per-worker ingestion loop becomes an
explicit state-passing fold.  Timestamps are modelled as integer
milliseconds since the Unix epoch, with the `datetime.fromtimestamp`
year-range validation (years 1..9999, see `fromtimestampOk`) modelled as
an error exactly as in the source; Python `datetime` has microsecond
resolution and goes through a float division `int(ms) / 1000.0`, whose
round trip after rounding to the microsecond is exact for every in-range
epoch below about 8.7e12 ms in absolute value (half an ulp under half a
microsecond), so the instant-value theorems are stated inside that exact
range and the model ignores only sub-millisecond drift beyond it.
-/

/-- Python errors that the embedded fragments can raise. -/
inductive PyErr where
  | typeError
  | valueError
  | attributeError
deriving DecidableEq

/-- A Python value as produced by `json.loads`: `None`, booleans, integers,
strings, lists and string-keyed dicts.  JSON numbers are restricted to
integers in this model (no claim involves fractional literals). -/
inductive PyVal where
  | none : PyVal
  | bool : Bool → PyVal
  | int : Int → PyVal
  | str : String → PyVal
  | list : List PyVal → PyVal
  | dict : List (String × PyVal) → PyVal

-- Structural boolean equality on `PyVal` (the nested inductive prevents
-- deriving `DecidableEq` directly).
mutual
def PyVal.beq : PyVal → PyVal → Bool
  | .none, .none => true
  | .bool x, .bool y => x == y
  | .int x, .int y => x == y
  | .str x, .str y => x == y
  | .list xs, .list ys => PyVal.beqL xs ys
  | .dict xs, .dict ys => PyVal.beqD xs ys
  | _, _ => false
def PyVal.beqL : List PyVal → List PyVal → Bool
  | [], [] => true
  | x :: xs, y :: ys => PyVal.beq x y && PyVal.beqL xs ys
  | _, _ => false
def PyVal.beqD : List (String × PyVal) → List (String × PyVal) → Bool
  | [], [] => true
  | (k1, v1) :: xs, (k2, v2) :: ys => k1 == k2 && PyVal.beq v1 v2 && PyVal.beqD xs ys
  | _, _ => false
end

mutual
theorem PyVal.eq_iff_beq : ∀ (a b : PyVal), a = b ↔ PyVal.beq a b = true
  | .none, b => by
    cases b <;> simp [PyVal.beq]
  | .bool x, b => by
    cases b <;> simp [PyVal.beq]
  | .int x, b => by
    cases b <;> simp [PyVal.beq]
  | .str x, b => by
    cases b <;> simp [PyVal.beq]
  | .list xs, b => by
    cases b <;> simp [PyVal.beq]
    exact PyVal.eqL_iff_beqL xs _
  | .dict xs, b => by
    cases b <;> simp [PyVal.beq]
    exact PyVal.eqD_iff_beqD xs _
theorem PyVal.eqL_iff_beqL : ∀ (as bs : List PyVal), as = bs ↔ PyVal.beqL as bs = true
  | [], bs => by cases bs <;> simp [PyVal.beqL]
  | a :: as, bs => by
    cases bs with
    | nil => simp [PyVal.beqL]
    | cons b bs =>
      simp only [PyVal.beqL, Bool.and_eq_true, List.cons.injEq]
      rw [← PyVal.eq_iff_beq a b, ← PyVal.eqL_iff_beqL as bs]
theorem PyVal.eqD_iff_beqD : ∀ (as bs : List (String × PyVal)), as = bs ↔ PyVal.beqD as bs = true
  | [], bs => by cases bs <;> simp [PyVal.beqD]
  | (k1, v1) :: as, bs => by
    cases bs with
    | nil => simp [PyVal.beqD]
    | cons b bs =>
      obtain ⟨k2, v2⟩ := b
      simp only [PyVal.beqD, Bool.and_eq_true, List.cons.injEq, Prod.mk.injEq, beq_iff_eq]
      rw [← PyVal.eq_iff_beq v1 v2, ← PyVal.eqD_iff_beqD as bs]
end

instance : DecidableEq PyVal := fun a b =>
  decidable_of_iff (PyVal.beq a b = true) (PyVal.eq_iff_beq a b).symm

deriving instance DecidableEq for Except

/-- Python truthiness (`bool(v)`): `None`/`False`/`0` and empty containers
or strings are falsy, everything else truthy. -/
def PyVal.truthy : PyVal → Bool
  | .none => false
  | .bool b => b
  | .int n => n != 0
  | .str s => s != ""
  | .list l => !l.isEmpty
  | .dict d => !d.isEmpty

/-- True when `v` is `None`. -/
def PyVal.isNone : PyVal → Bool
  | .none => true
  | _ => false

/-- True when `v` is a dict (`isinstance(v, dict)`). -/
def PyVal.isDict : PyVal → Bool
  | .dict _ => true
  | _ => false

/-- First-match lookup in an association list (Python dict lookup; the
JSON decoder below keeps at most one entry per key). -/
def lookupKV : List (String × PyVal) → String → Option PyVal
  | [], _ => Option.none
  | (k2, v) :: rest, k => if k2 = k then some v else lookupKV rest k

/-- Key membership of a dict value (used only to state theorems). -/
def PyVal.hasKey (v : PyVal) (k : String) : Bool :=
  match v with
  | .dict kvs => (lookupKV kvs k).isSome
  | _ => false

/-- Total dict field access used in theorem statements: the stored value,
or `None` when the key is absent or `v` is not a dict. -/
def PyVal.getItem (v : PyVal) (k : String) : PyVal :=
  match v with
  | .dict kvs => (lookupKV kvs k).getD .none
  | _ => .none

/-- Python `v.get(k)`: on a dict returns the stored value or `None`; on any other
value raises `AttributeError` (no `get` method). -/
def PyVal.getMethod (v : PyVal) (k : String) : Except PyErr PyVal :=
  match v with
  | .dict kvs => .ok ((lookupKV kvs k).getD .none)
  | _ => .error .attributeError

/-- Python `v.get(k, d)`: like `getMethod` but returning `d` when the key is
absent.  A key stored with value `None` still returns `None`, not `d`. -/
def PyVal.getMethodD (v : PyVal) (k : String) (d : PyVal) : Except PyErr PyVal :=
  match v with
  | .dict kvs => .ok ((lookupKV kvs k).getD d)
  | _ => .error .attributeError

/-- Python `a or b`. -/
def pyOr (a b : PyVal) : PyVal := if a.truthy then a else b

/-- ASCII whitespace as stripped by Python `str.strip()` (space, tab,
newline, carriage return, vertical tab, form feed; the full Unicode
whitespace set is not needed by any input considered here). -/
def pySpace (c : Char) : Bool :=
  c = ' ' || c.toNat = 9 || c.toNat = 10 || c.toNat = 13 || c.toNat = 11 || c.toNat = 12

/-- Python `s.strip()`. -/
def pyStrip (s : String) : String :=
  String.mk (((s.data.dropWhile pySpace).reverse.dropWhile pySpace).reverse)

/-- Digit-run parser for Python `int(str)`: digits with single underscores
allowed between digits (`1_000`); accumulates onto `acc`. -/
def pyIntDigits : Nat → List Char → Option Nat
  | acc, [] => some acc
  | acc, '_' :: c :: cs =>
    if c.isDigit then pyIntDigits (acc * 10 + (c.toNat - 48)) cs else Option.none
  | acc, c :: cs =>
    if c.isDigit then pyIntDigits (acc * 10 + (c.toNat - 48)) cs else Option.none

/-- Python `int(s)` on a string: optional surrounding whitespace, optional
sign, ASCII decimal digits with optional underscore separators. -/
def pyIntOfStr (s : String) : Option Int :=
  let cs := ((s.data.dropWhile pySpace).reverse.dropWhile pySpace).reverse
  match cs with
  | '+' :: c :: cs2 =>
    if c.isDigit then (pyIntDigits (c.toNat - 48) cs2).map Int.ofNat else Option.none
  | '-' :: c :: cs2 =>
    if c.isDigit then (pyIntDigits (c.toNat - 48) cs2).map (fun n => -(n : Int)) else Option.none
  | c :: cs2 =>
    if c.isDigit then (pyIntDigits (c.toNat - 48) cs2).map Int.ofNat else Option.none
  | [] => Option.none

/-- Python `int(v)`: identity on ints, 0/1 on bools, string parsing with
`ValueError` on failure, `TypeError` on `None`, lists and dicts. -/
def pyInt (v : PyVal) : Except PyErr Int :=
  match v with
  | .bool b => .ok (if b then 1 else 0)
  | .int n => .ok n
  | .str s =>
    match pyIntOfStr s with
    | some n => .ok n
    | Option.none => .error .valueError
  | _ => .error .typeError

/-- Python `repr`, used by `str()` on containers.  String quoting uses a
plain single quote without inner escaping; no claim ever applies `str()`
to a container or to a string containing a quote, so only the scalar
cases below are load-bearing. -/
def pyRepr : PyVal → String
  | .none => "None"
  | .bool true => "True"
  | .bool false => "False"
  | .int n => toString n
  | .str s => String.singleton (Char.ofNat 39) ++ s ++ String.singleton (Char.ofNat 39)
  | .list l =>
    "[" ++ String.intercalate ", " (l.attach.map fun x => pyRepr x.1) ++ "]"
  | .dict kvs =>
    "\x7b" ++
      String.intercalate ", "
        (kvs.attach.map fun x =>
          String.singleton (Char.ofNat 39) ++ x.1.1 ++ String.singleton (Char.ofNat 39) ++
            ": " ++ pyRepr x.1.2) ++
      "\x7d"
decreasing_by
  · have := List.sizeOf_lt_of_mem x.2
    simp only [PyVal.list.sizeOf_spec]
    omega
  · have h1 := List.sizeOf_lt_of_mem x.2
    have h2 : sizeOf x.1.2 < sizeOf x.1 := by
      obtain ⟨a, b⟩ := x.1
      simp
      try omega
    simp only [PyVal.dict.sizeOf_spec]
    omega

/-- Python `str(v)`: identity on strings, `None`/`True`/`False`/decimal
text on scalars, `repr`-style rendering on containers. -/
def pyStr : PyVal → String
  | .none => "None"
  | .bool true => "True"
  | .bool false => "False"
  | .int n => toString n
  | .str s => s
  | v => pyRepr v

/-- Python `v[:100]`: code-point slice on strings, element slice on lists,
`TypeError` on anything else (`None`, bools, ints, dicts). -/
def pySlice100 (v : PyVal) : Except PyErr PyVal :=
  match v with
  | .str s => .ok (.str (String.mk (s.data.take 100)))
  | .list l => .ok (.list (l.take 100))
  | _ => .error .typeError

/-! ## JSON decoding (`json.loads`)

A strict recursive-descent decoder over `PyVal`, mirroring the behaviour of
Python `json.loads` on the value shapes of this data set: objects, arrays,
strings (with the standard escapes; `\u` restricted to non-surrogate code
points), integers, `true`, `false`, `null`.  Fractional or exponent number
literals and surrogate escapes are rejected by this model (no claim
involves them).  A failure models `json.JSONDecodeError`. -/

/-- JSON structural whitespace (space, tab, line feed, carriage return). -/
def jsonWs (c : Char) : Bool :=
  c = ' ' || c.toNat = 9 || c.toNat = 10 || c.toNat = 13

/-- Hexadecimal digit value. -/
def hexVal (c : Char) : Option Nat :=
  if c.isDigit then some (c.toNat - 48)
  else if 97 ≤ c.toNat && c.toNat ≤ 102 then some (c.toNat - 87)
  else if 65 ≤ c.toNat && c.toNat ≤ 70 then some (c.toNat - 55)
  else Option.none

/-- Body of a JSON string after the opening quote: returns the decoded
characters and the input remaining after the closing quote. -/
def jsonStringAux : List Char → Option (List Char × List Char)
  | [] => Option.none
  | c :: rest =>
    if c = '"' then some ([], rest)
    else if c = '\\' then
      match rest with
      | [] => Option.none
      | e :: rest2 =>
        if e = '"' || e = '\\' || e = '/' then
          (jsonStringAux rest2).map fun p => (e :: p.1, p.2)
        else if e = 'b' then (jsonStringAux rest2).map fun p => (Char.ofNat 8 :: p.1, p.2)
        else if e = 'f' then (jsonStringAux rest2).map fun p => (Char.ofNat 12 :: p.1, p.2)
        else if e = 'n' then (jsonStringAux rest2).map fun p => (Char.ofNat 10 :: p.1, p.2)
        else if e = 'r' then (jsonStringAux rest2).map fun p => (Char.ofNat 13 :: p.1, p.2)
        else if e = 't' then (jsonStringAux rest2).map fun p => (Char.ofNat 9 :: p.1, p.2)
        else if e = 'u' then
          match rest2 with
          | h1 :: h2 :: h3 :: h4 :: rest3 =>
            match hexVal h1, hexVal h2, hexVal h3, hexVal h4 with
            | some a, some b, some c2, some d =>
              let code := ((a * 16 + b) * 16 + c2) * 16 + d
              if 0xD800 ≤ code && code ≤ 0xDFFF then Option.none
              else (jsonStringAux rest3).map fun p => (Char.ofNat code :: p.1, p.2)
            | _, _, _, _ => Option.none
          | _ => Option.none
        else Option.none
    else if c.toNat < 32 then Option.none
    else (jsonStringAux rest).map fun p => (c :: p.1, p.2)

/-- A JSON integer literal after an optional leading minus: `0` alone or a
nonzero digit followed by digits.  Returns the value and the rest. -/
def jsonNat : List Char → Option (Nat × List Char)
  | '0' :: rest => some (0, rest)
  | c :: rest =>
    if c.isDigit then
      let ds := rest.takeWhile Char.isDigit
      some (ds.foldl (fun acc d => acc * 10 + (d.toNat - 48)) (c.toNat - 48),
            rest.dropWhile Char.isDigit)
    else Option.none
  | [] => Option.none

/-- Replaces the value stored under `k`, or appends the pair: Python dict
insertion order and last-value-wins semantics for duplicate object keys. -/
def dictSet (kvs : List (String × PyVal)) (k : String) (v : PyVal) : List (String × PyVal) :=
  match kvs with
  | [] => [(k, v)]
  | (k2, v2) :: rest => if k2 = k then (k2, v) :: rest else (k2, v2) :: dictSet rest k v

/-- Decoder mode: a whole value, the items of an array after `[`, or the
members of an object after the opening brace (with the accumulated
members).  A single mode-indexed function keeps the recursion structural
on the fuel so that it reduces inside the kernel. -/
inductive JMode where
  | value : JMode
  | arrItems : JMode
  | objItems : List (String × PyVal) → JMode

/-- One step of JSON decoding; in `arrItems`/`objItems` mode the returned
value is the finished `PyVal.list`/`PyVal.dict`.  The fuel only bounds
nesting depth and is always sufficient at the entry point below. -/
def jsonP : Nat → JMode → List Char → Option (PyVal × List Char)
  | 0, _, _ => Option.none
  | Nat.succ fuel, JMode.value, cs =>
    match cs.dropWhile jsonWs with
    | [] => Option.none
    | c :: rest =>
      if c = '"' then (jsonStringAux rest).map fun p => (PyVal.str (String.mk p.1), p.2)
      else if c = 't' then
        match rest with
        | 'r' :: 'u' :: 'e' :: r => some (PyVal.bool true, r)
        | _ => Option.none
      else if c = 'f' then
        match rest with
        | 'a' :: 'l' :: 's' :: 'e' :: r => some (PyVal.bool false, r)
        | _ => Option.none
      else if c = 'n' then
        match rest with
        | 'u' :: 'l' :: 'l' :: r => some (PyVal.none, r)
        | _ => Option.none
      else if c = '[' then
        match (rest.dropWhile jsonWs) with
        | ']' :: r => some (PyVal.list [], r)
        | r => jsonP fuel JMode.arrItems r
      else if c = Char.ofNat 123 then
        match (rest.dropWhile jsonWs) with
        | c2 :: r =>
          if c2 = Char.ofNat 125 then some (PyVal.dict [], r)
          else jsonP fuel (JMode.objItems []) (c2 :: r)
        | [] => Option.none
      else if c = '-' then
        match jsonNat rest with
        | some (n, r) =>
          match r with
          | d :: _ =>
            if d = '.' || d = 'e' || d = 'E' then Option.none
            else some (PyVal.int (-(n : Int)), r)
          | [] => some (PyVal.int (-(n : Int)), r)
        | Option.none => Option.none
      else
        match jsonNat (c :: rest) with
        | some (n, r) =>
          match r with
          | d :: _ =>
            if d = '.' || d = 'e' || d = 'E' then Option.none
            else some (PyVal.int (n : Int), r)
          | [] => some (PyVal.int (n : Int), r)
        | Option.none => Option.none
  | Nat.succ fuel, JMode.arrItems, cs =>
    match jsonP fuel JMode.value cs with
    | Option.none => Option.none
    | some (v, rest) =>
      match rest.dropWhile jsonWs with
      | ',' :: r =>
        match jsonP fuel JMode.arrItems r with
        | some (PyVal.list vs, r2) => some (PyVal.list (v :: vs), r2)
        | _ => Option.none
      | ']' :: r => some (PyVal.list [v], r)
      | _ => Option.none
  | Nat.succ fuel, JMode.objItems acc, cs =>
    match cs.dropWhile jsonWs with
    | '"' :: rest =>
      match jsonStringAux rest with
      | Option.none => Option.none
      | some (kcs, rest2) =>
        match rest2.dropWhile jsonWs with
        | ':' :: rest3 =>
          match jsonP fuel JMode.value rest3 with
          | Option.none => Option.none
          | some (v, rest4) =>
            let acc2 := dictSet acc (String.mk kcs) v
            match rest4.dropWhile jsonWs with
            | ',' :: r => jsonP fuel (JMode.objItems acc2) r
            | c :: r => if c = Char.ofNat 125 then some (PyVal.dict acc2, r) else Option.none
            | [] => Option.none
        | _ => Option.none
    | _ => Option.none

/-- Python `json.loads(s)`: decode one JSON document with nothing but
whitespace after it; `Option.none` models `json.JSONDecodeError`. -/
def json_loads (s : String) : Option PyVal :=
  match jsonP (2 * s.data.length + 2) JMode.value s.data with
  | some (v, rest) => if rest.dropWhile jsonWs = [] then some v else Option.none
  | Option.none => Option.none

/-! ## Timestamp extraction (`parse_ts`)

Instants are integer milliseconds since the Unix epoch, UTC. -/

/-- Days since 1970-01-01 of the proleptic-Gregorian civil date y-m-d
(standard era-based algorithm, exact for all valid dates). -/
def daysFromCivil (y m d : Int) : Int :=
  let y2 := if m ≤ 2 then y - 1 else y
  let era := Int.fdiv y2 400
  let yoe := y2 - era * 400
  let mp := Int.emod (m + 9) 12
  let doy := Int.fdiv (153 * mp + 2) 5 + (d - 1)
  let doe := yoe * 365 + Int.fdiv yoe 4 - Int.fdiv yoe 100 + doy
  era * 146097 + doe - 719468

/-- Gregorian leap year. -/
def isLeap (y : Nat) : Bool := y % 4 = 0 && (y % 100 ≠ 0 || y % 400 = 0)

/-- Days in a month, as validated by `datetime.__init__`. -/
def daysInMonth (y m : Nat) : Nat :=
  if m = 2 then (if isLeap y then 29 else 28)
  else if m = 4 || m = 6 || m = 9 || m = 11 then 30
  else 31

/-- The aware datetime produced by `datetime.strptime(s, "%a %b %d
%H:%M:%S %z %Y")`: civil fields plus the UTC offset in seconds (`%z`
offsets may carry a seconds component, e.g. `+000030`). -/
structure ParsedDT where
  year : Nat
  month : Nat
  day : Nat
  hour : Nat
  minute : Nat
  second : Nat
  offSeconds : Int
deriving DecidableEq

/-- The instant of an aware datetime, normalized to UTC, in epoch ms. -/
def ParsedDT.toUtcMs (p : ParsedDT) : Int :=
  ((daysFromCivil p.year p.month p.day) * 86400 +
    (p.hour : Int) * 3600 + (p.minute : Int) * 60 + (p.second : Int) -
    p.offSeconds) * 1000

/-- Case-insensitive match of the pattern against an input, returning the
rest of the input (`re.IGNORECASE` name matching in `_strptime`). -/
def matchCI : List Char → List Char → Option (List Char)
  | [], cs => some cs
  | _ :: _, [] => Option.none
  | p :: ps, c :: cs => if p.toLower = c.toLower then matchCI ps cs else Option.none

/-- First name of the list matching a prefix of the input, 1-based index
(no name in the lists used here is a prefix of another). -/
def matchOneOfAux : Nat → List String → List Char → Option (Nat × List Char)
  | _, [], _ => Option.none
  | i, n :: ns, cs =>
    match matchCI n.data cs with
    | some rest => some (i, rest)
    | Option.none => matchOneOfAux (i + 1) ns cs

def matchOneOf (names : List String) (cs : List Char) : Option (Nat × List Char) :=
  matchOneOfAux 1 names cs

def dayNames : List String := ["Mon", "Tue", "Wed", "Thu", "Fri", "Sat", "Sun"]

def monthNames : List String :=
  ["Jan", "Feb", "Mar", "Apr", "May", "Jun", "Jul", "Aug", "Sep", "Oct", "Nov", "Dec"]

/-- One-or-more whitespace, as a whitespace run in the format matches
`\s+` in `_strptime`. -/
def skipWs1 (cs : List Char) : Option (List Char) :=
  match cs with
  | c :: rest => if pySpace c then some (rest.dropWhile pySpace) else Option.none
  | [] => Option.none

/-- Field `%d`: the regex `3[01]|[12]\d|0[1-9]|[1-9]| [1-9]`, alternatives in
order. -/
def parseDayCs (cs : List Char) : Option (Nat × List Char) :=
  match cs with
  | c1 :: rest1 =>
    match rest1 with
    | c2 :: rest2 =>
      if c1 = '3' && (c2 = '0' || c2 = '1') then some (30 + (c2.toNat - 48), rest2)
      else if (c1 = '1' || c1 = '2') && c2.isDigit then
        some ((c1.toNat - 48) * 10 + (c2.toNat - 48), rest2)
      else if c1 = '0' && c2.isDigit && c2 ≠ '0' then some (c2.toNat - 48, rest2)
      else if c1.isDigit && c1 ≠ '0' then some (c1.toNat - 48, rest1)
      else if c1 = ' ' && c2.isDigit && c2 ≠ '0' then some (c2.toNat - 48, rest2)
      else Option.none
    | [] => if c1.isDigit && c1 ≠ '0' then some (c1.toNat - 48, rest1) else Option.none
  | [] => Option.none

/-- Field `%H`: the regex `2[0-3]|[0-1]\d|\d`. -/
def parseHourCs (cs : List Char) : Option (Nat × List Char) :=
  match cs with
  | c1 :: rest1 =>
    match rest1 with
    | c2 :: rest2 =>
      if c1 = '2' && c2.isDigit && c2.toNat ≤ 51 then some (20 + (c2.toNat - 48), rest2)
      else if (c1 = '0' || c1 = '1') && c2.isDigit then
        some ((c1.toNat - 48) * 10 + (c2.toNat - 48), rest2)
      else if c1.isDigit then some (c1.toNat - 48, rest1)
      else Option.none
    | [] => if c1.isDigit then some (c1.toNat - 48, rest1) else Option.none
  | [] => Option.none

/-- Field `%M`: the regex `[0-5]\d|\d`. -/
def parseMinCs (cs : List Char) : Option (Nat × List Char) :=
  match cs with
  | c1 :: rest1 =>
    match rest1 with
    | c2 :: rest2 =>
      if c1.isDigit && c1.toNat ≤ 53 && c2.isDigit then
        some ((c1.toNat - 48) * 10 + (c2.toNat - 48), rest2)
      else if c1.isDigit then some (c1.toNat - 48, rest1)
      else Option.none
    | [] => if c1.isDigit then some (c1.toNat - 48, rest1) else Option.none
  | [] => Option.none

/-- Field `%S`: the regex `6[0-1]|[0-5]\d|\d` (60 and 61 parse here and are then
rejected when the `datetime` is constructed). -/
def parseSecCs (cs : List Char) : Option (Nat × List Char) :=
  match cs with
  | c1 :: rest1 =>
    match rest1 with
    | c2 :: rest2 =>
      if c1 = '6' && (c2 = '0' || c2 = '1') then some (60 + (c2.toNat - 48), rest2)
      else if c1.isDigit && c1.toNat ≤ 53 && c2.isDigit then
        some ((c1.toNat - 48) * 10 + (c2.toNat - 48), rest2)
      else if c1.isDigit then some (c1.toNat - 48, rest1)
      else Option.none
    | [] => if c1.isDigit then some (c1.toNat - 48, rest1) else Option.none
  | [] => Option.none

/-- Field `%z`, per the `_strptime` regex
`[+-]\d\d:?[0-5]\d(:?[0-5]\d(\.\d{1,6})?)?|(?-i:Z)`: `Z`, or sign, two
hour digits, optional colon, minutes `[0-5]\d`, then an optional seconds
group `:?[0-5]\d`; the result is the offset in seconds.  When the seconds
digits do not match, the optional group is skipped with the input left in
place, exactly as regex backtracking leaves it (the following `\s+` of
the format then decides, matching the regex outcome).  The fractional
part `\.\d{1,6}` is below the millisecond resolution of this model and
is not supported: a format-valid fraction is rejected here where CPython
would accept it (stricter-only, and absent from this data set). -/
def parseZCs (cs : List Char) : Option (Int × List Char) :=
  match cs with
  | 'Z' :: r => some (0, r)
  | sign :: h1 :: h2 :: rest =>
    if (sign = '+' || sign = '-') && h1.isDigit && h2.isDigit then
      let hh := (h1.toNat - 48) * 10 + (h2.toNat - 48)
      let rest2 := match rest with
        | ':' :: r2 => r2
        | r2 => r2
      match rest2 with
      | m1 :: m2 :: r3 =>
        if m1.isDigit && m1.toNat ≤ 53 && m2.isDigit then
          let mm := (m1.toNat - 48) * 10 + (m2.toNat - 48)
          let base : Int := (hh : Int) * 3600 + (mm : Int) * 60
          let r4 := match r3 with
            | ':' :: r5 => r5
            | r5 => r5
          match r4 with
          | s1 :: s2 :: r6 =>
            if s1.isDigit && s1.toNat ≤ 53 && s2.isDigit then
              let ss := (s1.toNat - 48) * 10 + (s2.toNat - 48)
              let off := base + (ss : Int)
              some (if sign = '-' then -off else off, r6)
            else some (if sign = '-' then -base else base, r3)
          | _ => some (if sign = '-' then -base else base, r3)
        else Option.none
      | _ => Option.none
    else Option.none
  | _ => Option.none

/-- Field `%Y`: exactly four digits. -/
def parseYearCs (cs : List Char) : Option (Nat × List Char) :=
  match cs with
  | c1 :: c2 :: c3 :: c4 :: r =>
    if c1.isDigit && c2.isDigit && c3.isDigit && c4.isDigit then
      some ((((c1.toNat - 48) * 10 + (c2.toNat - 48)) * 10 + (c3.toNat - 48)) * 10 +
        (c4.toNat - 48), r)
    else Option.none
  | _ => Option.none

/-- Python `datetime.strptime(s, "%a %b %d %H:%M:%S %z %Y")`: match the format,
require the whole input consumed, then apply the validation performed by
the `datetime`/`timezone` constructors (year ≥ 1, day within the month,
second ≤ 59, |offset| < 24 h).  `Option.none` models `ValueError`. -/
def strptimeTwitter (s : String) : Option ParsedDT := do
  let cs := s.data
  let (_, cs) ← matchOneOf dayNames cs
  let cs ← skipWs1 cs
  let (mon, cs) ← matchOneOf monthNames cs
  let cs ← skipWs1 cs
  let (day, cs) ← parseDayCs cs
  let cs ← skipWs1 cs
  let (hh, cs) ← parseHourCs cs
  let cs ← match cs with
    | ':' :: r => some r
    | _ => Option.none
  let (mi, cs) ← parseMinCs cs
  let cs ← match cs with
    | ':' :: r => some r
    | _ => Option.none
  let (sec, cs) ← parseSecCs cs
  let cs ← skipWs1 cs
  let (off, cs) ← parseZCs cs
  let cs ← skipWs1 cs
  let (yr, cs) ← parseYearCs cs
  if cs ≠ [] then Option.none
  else if yr < 1 then Option.none
  else if day < 1 || day > daysInMonth yr mon then Option.none
  else if sec > 59 then Option.none
  else if off.natAbs ≥ 86400 then Option.none
  else some ⟨yr, mon, day, hh, mi, sec, off⟩

/-- The first representable aware instant, 0001-01-01T00:00:00 UTC
(`datetime.min`), in epoch ms: `daysFromCivil 1 1 1 * 86400 * 1000`. -/
def epochMsMin : Int := -62135596800000

/-- The last representable aware instant at millisecond resolution,
9999-12-31T23:59:59.999 UTC: `daysFromCivil 10000 1 1 * 86400 * 1000 - 1`. -/
def epochMsMax : Int := 253402300799999

/-- The range validation of `datetime.fromtimestamp`: the resulting year
must lie in 1..9999, i.e. the epoch instant within
[`epochMsMin`, `epochMsMax`]; outside it the constructor raises. -/
def fromtimestampOk (n : Int) : Bool := epochMsMin ≤ n && n ≤ epochMsMax

/-- Function `parse_ts(obj)` from `backfill_parallel.py` (identical in
`backfill.py`): epoch-millisecond field first, then the fixed-format
textual date, else `None`; malformed values raise.  The
`timestamp_ms` path models `datetime.fromtimestamp(int(ms) / 1000.0,
tz=utc)` at millisecond resolution: epochs outside the year range
1..9999 raise (modelled as `ValueError`, the error CPython raises for
every such epoch representable in `time_t`; astronomically larger values
raise `OverflowError` instead, equally uncaught by the worker).  Within
the range the instant is the exact integer `n` ms: the source's float
division then microsecond rounding reproduces `n` exactly for
`|n| < 2^33 * 1000 ≈ 8.7e12` (half an ulp of `n / 1000` stays under half
a microsecond there), which covers every realistic epoch; above that the
float path can drift by microseconds, below the resolution of this
model, and the theorems only assert instant equality inside the exact
range. -/
def parse_ts (obj : PyVal) : Except PyErr (Option Int) := do
  let ms ← obj.getMethod "timestamp_ms"
  if ms.isNone then do
    let created ← obj.getMethod "created_at"
    if created.truthy then
      match created with
      | .str s =>
        match strptimeTwitter s with
        | some p => pure (some p.toUtcMs)
        | Option.none => throw PyErr.valueError
      | _ => throw PyErr.typeError
    else
      pure Option.none
  else do
    let n ← pyInt ms
    if fromtimestampOk n then pure (some n) else throw PyErr.valueError

/-! ## Record projection (`extract_row`) and identifier resolution -/

/-- The projected column tuple of `extract_row` (everything after `ts` and
`id_str`, which the caller prepends). -/
structure Row where
  lang : PyVal
  source : PyVal
  screen_name : PyVal
  place : PyVal
  quote_count : PyVal
  favorited : PyVal
  coordinates : PyVal
  entities : PyVal
  friends_count : PyVal
  user_id : PyVal
deriving DecidableEq

/-- Function `extract_row(obj)`: the straight-line body of the Python function,
with the fallible operations (`.get` on an arbitrary value, slicing) in
the evaluation order of the source; `Json(...)` wrapping keeps the dict
value itself. -/
def extract_row (obj : PyVal) : Except PyErr Row := do
  let user := pyOr (← obj.getMethod "user") (PyVal.dict [])
  let place ← obj.getMethod "place"
  -- `place.get("name")` is guarded by `isinstance(place, dict)`, so it can
  -- never raise; `getItem` is `getMethod` restricted to dicts.
  let place_name := if place.truthy && place.isDict then place.getItem "name" else PyVal.none
  let coords ← obj.getMethod "coordinates"
  let entities_data ← obj.getMethod "entities"
  let langv ← obj.getMethod "lang"
  let sourcev ← obj.getMethod "source"
  let source2 ← pySlice100 (pyOr sourcev (PyVal.str ""))
  let screen ← user.getMethod "screen_name"
  let qc ← obj.getMethod "quote_count"
  let fav ← obj.getMethod "favorited"
  let friends ← user.getMethod "friends_count"
  let uid ← user.getMethod "id"
  pure
    { lang := pyOr langv (PyVal.str "und")
      source := source2
      screen_name := screen
      place := place_name
      quote_count := qc
      favorited := fav
      coordinates := if coords.truthy && coords.isDict then coords else PyVal.none
      entities := if entities_data.truthy && entities_data.isDict then entities_data
        else PyVal.none
      friends_count := friends
      user_id := uid }

/-- The identifier computation of the worker loop:
`obj.get("id_str") or str(obj.get("id", ""))`. -/
def resolve_id (obj : PyVal) : Except PyErr PyVal := do
  let v ← obj.getMethod "id_str"
  if v.truthy then pure v
  else do
    let idv ← obj.getMethodD "id" (PyVal.str "")
    pure (PyVal.str (pyStr idv))

/-! ## The ingestion worker (`process_files`)

The store is a list of committed rows; the batched
`execute_values(INSERT ... ON CONFLICT (ts, id_str) DO NOTHING)` appends
the rows of the batch whose `(ts, id_str)` key is not yet present (rows
earlier in the same batch included) and reports how many were added
(`cur.rowcount`).  A file is `Option (List String)`: `Option.none` is a
path for which `os.path.isfile` fails, `some lines` the decoded lines of
an existing file. -/

/-- A fully assembled stored row: `(ts, id_str, *row)`. -/
structure StoredRow where
  ts : Int
  id_str : PyVal
  row : Row
deriving DecidableEq

/-- The conflict key of a stored row. -/
def StoredRow.key (r : StoredRow) : Int × PyVal := (r.ts, r.id_str)

/-- The committed store. -/
abbrev DB := List StoredRow

/-- The keys present in the store. -/
def DB.keys (db : DB) : List (Int × PyVal) := List.map StoredRow.key db

/-- Model of `execute_values` of one batch with `ON CONFLICT DO NOTHING`: each row
of the batch in order is appended to the store unless its key is already
present (rows appended earlier in the same statement included), and
`cur.rowcount` reports how many rows were actually inserted. -/
def execValues (db : DB) : List StoredRow → DB × Nat
  | [] => (db, 0)
  | r :: rest =>
    if r.key ∈ DB.keys db then execValues db rest
    else
      let p := execValues (db ++ [r]) rest
      (p.1, p.2 + 1)

/-- Worker-loop state: the store connection view, the in-memory batch and
the three counters of `process_files`. -/
structure WState where
  db : DB
  batch : List StoredRow
  inserted : Nat
  skipped : Nat
  read_count : Nat
deriving DecidableEq

/-- Flush: `execute_values`, add `cur.rowcount` to `inserted`, commit,
clear the batch. -/
def flushBatch (st : WState) : WState :=
  let p := execValues st.db st.batch
  { st with db := p.1, inserted := st.inserted + p.2, batch := [] }

/-- The body of the inner `for line in f` loop for one raw line, with
batch threshold `bs`.  Only `json.JSONDecodeError` is caught; an error
from `parse_ts` (or any later step) propagates and aborts the worker. -/
def processLine (bs : Nat) (st : WState) (rawLine : String) : Except PyErr WState :=
  let line := pyStrip rawLine
  if line = "" then .ok st
  else
    let st := { st with read_count := st.read_count + 1 }
    match json_loads line with
    | Option.none => .ok { st with skipped := st.skipped + 1 }
    | some obj => do
      let ts? ← parse_ts obj
      match ts? with
      | Option.none => pure { st with skipped := st.skipped + 1 }
      | some ts => do
        let idv ← resolve_id obj
        if !idv.truthy then pure { st with skipped := st.skipped + 1 }
        else do
          let row ← extract_row obj
          let st := { st with batch := List.append st.batch [⟨ts, idv, row⟩] }
          if bs ≤ st.batch.length then pure (flushBatch st) else pure st

/-- The lines of one file, in order. -/
def processLines (bs : Nat) (st : WState) : List String → Except PyErr WState
  | [] => .ok st
  | l :: ls => do
    let st2 ← processLine bs st l
    processLines bs st2 ls

/-- The files of one chunk, in order (missing paths are skipped). -/
def processChunk (bs : Nat) (st : WState) : List (Option (List String)) → Except PyErr WState
  | [] => .ok st
  | Option.none :: fs => processChunk bs st fs
  | some lines :: fs => do
    let st2 ← processLines bs st lines
    processChunk bs st2 fs

/-- Function `process_files` on one chunk, starting from the store `db0`: run every
file, flush the final partial batch if non-empty, and return the final
store together with `(inserted, skipped, read_count)`. -/
def process_files (bs : Nat) (db0 : DB) (files : List (Option (List String))) :
    Except PyErr (DB × Nat × Nat × Nat) := do
  let st0 : WState := ⟨db0, [], 0, 0, 0⟩
  let st ← processChunk bs st0 files
  let st := if st.batch.isEmpty then st else flushBatch st
  pure (st.db, st.inserted, st.skipped, st.read_count)

/-! ## Ghost accounting used to state the worker-counter invariants -/

/-- The loop behind `[files[i : i + cs] for i in range(0, len(files), cs)]`
for `cs ≥ 1`, fuel-structured so that it evaluates in the kernel (the fuel
is the list length, always sufficient; Python raises `ValueError` on a
zero step, so `cs = 0` is outside the model and excluded by hypothesis in
the theorems below). -/
def chunkLoop {α : Type} : Nat → Nat → List α → List (List α)
  | _, _, [] => []
  | 0, _, _ :: _ => []
  | Nat.succ fuel, cs, l => l.take cs :: chunkLoop fuel cs (l.drop cs)

/-- Computes `chunk_size = min(CHUNK_SIZE, len(files))` followed by the slicing
comprehension of `main`. -/
def make_chunks {α : Type} (cfg : Nat) (files : List α) : List (List α) :=
  chunkLoop files.length (min cfg files.length) files

/-- Computes `n = min(N_WORKERS, len(chunks))`. -/
def clampWorkers {α : Type} (nw : Nat) (chunks : List (List α)) : Nat :=
  min nw chunks.length

/-! ## Concrete witness data for the claims below -/

/-- The raw record of the C5 witness: a non-empty mapping in
`coordinates`, an empty list in `entities`. -/
def c5kvs : List (String × PyVal) :=
  [("coordinates", .dict [("type", .str "Point")]), ("entities", .list [])]

/-- The row `extract_row` produces for `c5kvs` (fields in declaration
order: lang, source, screen_name, place, quote_count, favorited,
coordinates, entities, friends_count, user_id). -/
def c5row : Row :=
  ⟨.str "und", .str "", .none, .none, .none, .none, .dict [("type", .str "Point")],
    .none, .none, .none⟩

/-- The 120-character source string of the C6 witness. -/
def c6s : String := String.mk (List.replicate 120 'a')

/-- The raw record of the C6 witness. -/
def c6kvs : List (String × PyVal) := [("source", .str c6s)]

/-- The row `extract_row` produces for `c6kvs`. -/
def c6row : Row :=
  ⟨.str "und", .str (String.mk (List.replicate 100 'a')), .none, .none, .none, .none,
    .none, .none, .none, .none⟩

/-- The row produced by the C8 scenario line. -/
def c8row : Row :=
  ⟨.str "en", .str "", .none, .none, .none, .none, .none, .none, .none, .none⟩

/-- The row produced by the C10 scenario line. -/
def c10row : Row :=
  ⟨.str "und", .str "", .none, .none, .none, .none, .none, .none, .none, .none⟩

theorem exceptBindOk {ε α β : Type} (a : α) (f : α → Except ε β) :
    ((Except.ok a : Except ε α) >>= f) = f a := rfl

theorem except_bind_ok {ε α β : Type} {m : Except ε α} {f : α → Except ε β} {r : β}
    (h : (m >>= f) = .ok r) : ∃ a, m = .ok a ∧ f a = .ok r := by
  cases m with
  | error e => simp [Bind.bind, Except.bind] at h
  | ok a => exact ⟨a, rfl, by simpa [Bind.bind, Except.bind] using h⟩

theorem getMethod_ok {v : PyVal} {k : String} {a : PyVal} (h : v.getMethod k = .ok a) :
    v.isDict = true ∧ a = v.getItem k := by
  cases v <;> simp_all [PyVal.getMethod, PyVal.getItem, PyVal.isDict]

theorem getMethod_dict (kvs : List (String × PyVal)) (k : String) :
    (PyVal.dict kvs).getMethod k = .ok ((PyVal.dict kvs).getItem k) := rfl

theorem getMethod_isDict (obj : PyVal) (k : String) (h : obj.isDict = true) :
    obj.getMethod k = .ok (obj.getItem k) := by
  cases obj <;> simp_all [PyVal.getMethod, PyVal.getItem, PyVal.isDict]

theorem getMethodD_dict (kvs : List (String × PyVal)) (k : String) (d : PyVal) :
    (PyVal.dict kvs).getMethodD k d = .ok ((lookupKV kvs k).getD d) := rfl

theorem lookup_of_hasKey {kvs : List (String × PyVal)} {k : String}
    (h : (PyVal.dict kvs).hasKey k = true) :
    lookupKV kvs k = some ((PyVal.dict kvs).getItem k) := by
  simp only [PyVal.hasKey, Option.isSome_iff_exists] at h
  obtain ⟨v, hv⟩ := h
  simp [PyVal.getItem, hv]

theorem lookup_of_not_hasKey {kvs : List (String × PyVal)} {k : String}
    (h : (PyVal.dict kvs).hasKey k = false) :
    lookupKV kvs k = Option.none := by
  simp only [PyVal.hasKey] at h
  cases hlk : lookupKV kvs k <;> simp_all

/-- Everything `extract_row` determines about a successfully projected
row, in terms of the raw record: the master specification used by several
claims below. -/
theorem extract_row_spec (kvs : List (String × PyVal)) (r : Row)
    (h : extract_row (PyVal.dict kvs) = .ok r) :
    r.lang = pyOr ((PyVal.dict kvs).getItem "lang") (.str "und") ∧
    pySlice100 (pyOr ((PyVal.dict kvs).getItem "source") (.str "")) = .ok r.source ∧
    (pyOr ((PyVal.dict kvs).getItem "user") (.dict [])).isDict = true ∧
    r.screen_name = (pyOr ((PyVal.dict kvs).getItem "user") (.dict [])).getItem "screen_name" ∧
    r.place = (if (((PyVal.dict kvs).getItem "place").truthy &&
        ((PyVal.dict kvs).getItem "place").isDict) = true
      then ((PyVal.dict kvs).getItem "place").getItem "name" else PyVal.none) ∧
    r.quote_count = (PyVal.dict kvs).getItem "quote_count" ∧
    r.favorited = (PyVal.dict kvs).getItem "favorited" ∧
    r.coordinates = (if (((PyVal.dict kvs).getItem "coordinates").truthy &&
        ((PyVal.dict kvs).getItem "coordinates").isDict) = true
      then (PyVal.dict kvs).getItem "coordinates" else PyVal.none) ∧
    r.entities = (if (((PyVal.dict kvs).getItem "entities").truthy &&
        ((PyVal.dict kvs).getItem "entities").isDict) = true
      then (PyVal.dict kvs).getItem "entities" else PyVal.none) ∧
    r.friends_count = (pyOr ((PyVal.dict kvs).getItem "user") (.dict [])).getItem
      "friends_count" ∧
    r.user_id = (pyOr ((PyVal.dict kvs).getItem "user") (.dict [])).getItem "id" := by
  rw [extract_row] at h
  obtain ⟨uv, hu, h⟩ := except_bind_ok h
  rw [getMethod_dict, Except.ok.injEq] at hu
  subst hu
  obtain ⟨pl, hpl, h⟩ := except_bind_ok h
  rw [getMethod_dict, Except.ok.injEq] at hpl
  subst hpl
  obtain ⟨cv, hcv, h⟩ := except_bind_ok h
  rw [getMethod_dict, Except.ok.injEq] at hcv
  subst hcv
  obtain ⟨ev, hev, h⟩ := except_bind_ok h
  rw [getMethod_dict, Except.ok.injEq] at hev
  subst hev
  obtain ⟨lv, hlv, h⟩ := except_bind_ok h
  rw [getMethod_dict, Except.ok.injEq] at hlv
  subst hlv
  obtain ⟨sv, hsv, h⟩ := except_bind_ok h
  rw [getMethod_dict, Except.ok.injEq] at hsv
  subst hsv
  obtain ⟨src, hsrc, h⟩ := except_bind_ok h
  obtain ⟨scr, hscr, h⟩ := except_bind_ok h
  obtain ⟨qv, hqv, h⟩ := except_bind_ok h
  rw [getMethod_dict, Except.ok.injEq] at hqv
  subst hqv
  obtain ⟨fv, hfv, h⟩ := except_bind_ok h
  rw [getMethod_dict, Except.ok.injEq] at hfv
  subst hfv
  obtain ⟨frv, hfrv, h⟩ := except_bind_ok h
  obtain ⟨idv, hidv, h⟩ := except_bind_ok h
  obtain ⟨hUdict, hscr2⟩ := getMethod_ok hscr
  obtain ⟨-, hfrv2⟩ := getMethod_ok hfrv
  obtain ⟨-, hidv2⟩ := getMethod_ok hidv
  subst hscr2
  subst hfrv2
  subst hidv2
  simp only [pure, Except.pure, Except.ok.injEq] at h
  subst h
  exact ⟨rfl, hsrc ▸ rfl, hUdict, rfl, rfl, rfl, rfl, rfl, rfl, rfl, rfl⟩

/-- Success of `extract_row` whenever the `user` value is falsy or a dict
and the `source` value is falsy, a string, or a list. -/
theorem extract_row_ok (kvs : List (String × PyVal))
    (hu : ((PyVal.dict kvs).getItem "user").truthy = false ∨
      ((PyVal.dict kvs).getItem "user").isDict = true)
    (hs : ((PyVal.dict kvs).getItem "source").truthy = false ∨
      (∃ s, (PyVal.dict kvs).getItem "source" = .str s) ∨
      (∃ l, (PyVal.dict kvs).getItem "source" = .list l)) :
    ∃ r, extract_row (PyVal.dict kvs) = .ok r := by
  have hu2 : (pyOr ((PyVal.dict kvs).getItem "user") (.dict [])).isDict = true := by
    unfold pyOr
    rcases hu with h | h
    · rw [h]
      rfl
    · by_cases ht : ((PyVal.dict kvs).getItem "user").truthy = true
      · rw [if_pos ht]
        exact h
      · rw [if_neg ht]
        rfl
  have hs2 : ∃ x, pySlice100 (pyOr ((PyVal.dict kvs).getItem "source") (.str "")) = .ok x := by
    unfold pyOr
    by_cases ht : ((PyVal.dict kvs).getItem "source").truthy = true
    · rw [if_pos ht]
      rcases hs with h | ⟨s, h⟩ | ⟨l, h⟩
      · simp [h] at ht
      · rw [h]
        exact ⟨_, rfl⟩
      · rw [h]
        exact ⟨_, rfl⟩
    · rw [if_neg ht]
      exact ⟨_, rfl⟩
  obtain ⟨x, hx⟩ := hs2
  rcases hUd : pyOr ((PyVal.dict kvs).getItem "user") (.dict []) with _ | b | n | s | l | d <;>
    rw [hUd] at hu2 <;>
    try simp [PyVal.isDict] at hu2
  rw [extract_row]
  simp only [getMethod_dict, exceptBindOk, hUd, hx]
  exact ⟨_, rfl⟩

/-- The shape of one guarded nested-object column
(`Json(v) if v and isinstance(v, dict) else None`). -/
theorem guardedColumn_spec (v col : PyVal)
    (hcol : col = (if (v.truthy && v.isDict) = true then v else PyVal.none)) :
    (col ≠ PyVal.none ↔ ∃ kvs2, v = .dict kvs2 ∧ kvs2 ≠ []) ∧
    (col ≠ PyVal.none → col = v) := by
  subst hcol
  cases v with
  | dict a =>
    by_cases ha : a = []
    · subst ha
      simp [PyVal.truthy, PyVal.isDict]
    · simp only [PyVal.truthy, PyVal.isDict, Bool.and_true]
      rw [if_pos (by simp [List.isEmpty_iff, ha])]
      constructor
      · constructor
        · intro _
          exact ⟨a, rfl, ha⟩
        · intro _
          simp
      · intro _
        rfl
  | none => simp [PyVal.truthy, PyVal.isDict]
  | bool b => simp [PyVal.truthy, PyVal.isDict]
  | int n => simp [PyVal.truthy, PyVal.isDict]
  | str s => simp [PyVal.truthy, PyVal.isDict]
  | list l => simp [PyVal.truthy, PyVal.isDict]

/-! ## The claims -/

/-- C2, counterexample to the claim as stated: `extract_row` does raise on
some malformed optional fields: a truthy non-mapping `user` has no `.get`
(`AttributeError`), a truthy non-sliceable `source` raises `TypeError`. -/
theorem C2_counterexample :
    extract_row (PyVal.dict [("user", .str "bob")]) = .error .attributeError ∧
    extract_row (PyVal.dict [("source", .int 5)]) = .error .typeError := by decide

/-- C2, amended: `extract_row` performs no I/O (it is a pure projection)
and, whenever the `user` field is absent, falsy or a mapping and the
`source` field is absent, falsy, a string or a list, it never raises, and
the guarded optional fields (`place`, `coordinates`, `entities`) degrade
to null whenever their raw value is not a mapping. -/
theorem C2_extract_row_total (kvs : List (String × PyVal))
    (hu : ((PyVal.dict kvs).getItem "user").truthy = false ∨
      ((PyVal.dict kvs).getItem "user").isDict = true)
    (hs : ((PyVal.dict kvs).getItem "source").truthy = false ∨
      (∃ s, (PyVal.dict kvs).getItem "source" = .str s) ∨
      (∃ l, (PyVal.dict kvs).getItem "source" = .list l)) :
    ∃ r, extract_row (PyVal.dict kvs) = .ok r ∧
      (((PyVal.dict kvs).getItem "place").isDict = false → r.place = PyVal.none) ∧
      (((PyVal.dict kvs).getItem "coordinates").isDict = false → r.coordinates = PyVal.none) ∧
      (((PyVal.dict kvs).getItem "entities").isDict = false → r.entities = PyVal.none) := by
  obtain ⟨r, hr⟩ := extract_row_ok kvs hu hs
  obtain ⟨-, -, -, -, hplace, -, -, hcoord, hent, -, -⟩ := extract_row_spec kvs r hr
  refine ⟨r, hr, ?_, ?_, ?_⟩
  · intro hnd
    rw [hplace]
    simp [hnd]
  · intro hnd
    rw [hcoord]
    simp [hnd]
  · intro hnd
    rw [hent]
    simp [hnd]

/-- C2, witness: a record with a mapping `user`, a string `source`, and
malformed `place`/`coordinates`/`entities`. -/
theorem C2_witness :
    ∃ r, extract_row (PyVal.dict [("user", .dict [("screen_name", .str "a")]),
      ("place", .str "x"), ("coordinates", .list [.int 1]), ("entities", .int 3),
      ("source", .str "s")]) = .ok r ∧
      (((PyVal.dict [("user", .dict [("screen_name", .str "a")]), ("place", .str "x"),
        ("coordinates", .list [.int 1]), ("entities", .int 3),
        ("source", .str "s")]).getItem "place").isDict = false → r.place = PyVal.none) ∧
      (((PyVal.dict [("user", .dict [("screen_name", .str "a")]), ("place", .str "x"),
        ("coordinates", .list [.int 1]), ("entities", .int 3),
        ("source", .str "s")]).getItem "coordinates").isDict = false →
        r.coordinates = PyVal.none) ∧
      (((PyVal.dict [("user", .dict [("screen_name", .str "a")]), ("place", .str "x"),
        ("coordinates", .list [.int 1]), ("entities", .int 3),
        ("source", .str "s")]).getItem "entities").isDict = false → r.entities = PyVal.none) :=
  C2_extract_row_total _ (Or.inr (by decide)) (Or.inr (Or.inl ⟨"s", by decide⟩))

/-- C5, counterexample to the claim as stated: an empty mapping in
`coordinates` is present and structurally a key-value mapping, yet it is
falsy in Python, so the guard stores null. -/
theorem C5_counterexample :
    (PyVal.dict [("coordinates", PyVal.dict [])]).hasKey "coordinates" = true ∧
    ((PyVal.dict [("coordinates", PyVal.dict [])]).getItem "coordinates").isDict = true ∧
    (extract_row (PyVal.dict [("coordinates", PyVal.dict [])])).map Row.coordinates =
      .ok PyVal.none := by decide

/-- C5, amended: the `coordinates` and `entities` columns are non-null
exactly when the raw value is present, structurally a key-value mapping,
and non-empty; every other shape (a list, a scalar, absence, an empty
mapping) yields null, and a non-null column stores the raw mapping
itself. -/
theorem C5_nested_object_columns (kvs : List (String × PyVal)) (r : Row)
    (h : extract_row (PyVal.dict kvs) = .ok r) :
    (r.coordinates ≠ PyVal.none ↔
      ∃ kvs2, (PyVal.dict kvs).getItem "coordinates" = .dict kvs2 ∧ kvs2 ≠ []) ∧
    (r.coordinates ≠ PyVal.none → r.coordinates = (PyVal.dict kvs).getItem "coordinates") ∧
    (r.entities ≠ PyVal.none ↔
      ∃ kvs2, (PyVal.dict kvs).getItem "entities" = .dict kvs2 ∧ kvs2 ≠ []) ∧
    (r.entities ≠ PyVal.none → r.entities = (PyVal.dict kvs).getItem "entities") := by
  obtain ⟨-, -, -, -, -, -, -, hcoord, hent, -, -⟩ := extract_row_spec kvs r h
  obtain ⟨hc1, hc2⟩ := guardedColumn_spec _ _ hcoord
  obtain ⟨he1, he2⟩ := guardedColumn_spec _ _ hent
  exact ⟨hc1, hc2, he1, he2⟩

/-- C5, witness: a non-empty mapping in `coordinates` is stored, an empty
list in `entities` is nulled. -/
theorem C5_witness :
    (c5row.coordinates ≠ PyVal.none ↔
      ∃ kvs2, (PyVal.dict c5kvs).getItem "coordinates" = .dict kvs2 ∧ kvs2 ≠ []) ∧
    (c5row.coordinates ≠ PyVal.none →
      c5row.coordinates = (PyVal.dict c5kvs).getItem "coordinates") ∧
    (c5row.entities ≠ PyVal.none ↔
      ∃ kvs2, (PyVal.dict c5kvs).getItem "entities" = .dict kvs2 ∧ kvs2 ≠ []) ∧
    (c5row.entities ≠ PyVal.none →
      c5row.entities = (PyVal.dict c5kvs).getItem "entities") :=
  C5_nested_object_columns c5kvs c5row (by decide)

/-- C6: a string `source` is truncated to its first 100 code points:
values of length at most 100 pass through unchanged, longer values are
stored as exactly their first 100 code points, never rejected. -/
theorem C6_source_truncation (kvs : List (String × PyVal)) (r : Row) (s : String)
    (h : extract_row (PyVal.dict kvs) = .ok r)
    (hs : (PyVal.dict kvs).getItem "source" = .str s) :
    r.source = .str (String.mk (s.data.take 100)) ∧
    (s.data.length ≤ 100 → r.source = .str s) ∧
    (100 < s.data.length → ∃ t, r.source = .str t ∧ t.data.length = 100 ∧
      t.data = s.data.take 100) := by
  obtain ⟨-, hsrc, -⟩ := extract_row_spec kvs r h
  rw [hs] at hsrc
  have hps : pyOr (PyVal.str s) (PyVal.str "") = PyVal.str s := by
    unfold pyOr
    by_cases he : s = ""
    · subst he
      simp
    · have ht : (PyVal.str s).truthy = true := by simp [PyVal.truthy, he]
      rw [if_pos ht]
  rw [hps] at hsrc
  simp only [pySlice100, Except.ok.injEq] at hsrc
  refine ⟨hsrc.symm, ?_, ?_⟩
  · intro hle
    rw [← hsrc, List.take_of_length_le hle]
  · intro hgt
    refine ⟨String.mk (s.data.take 100), hsrc.symm, ?_, rfl⟩
    simp only [List.length_take]
    omega

/-- C6, witness: a 120-character source string is stored as its first 100
characters. -/
theorem C6_witness :
    c6row.source = .str (String.mk (c6s.data.take 100)) ∧
    (c6s.data.length ≤ 100 → c6row.source = .str c6s) ∧
    (100 < c6s.data.length → ∃ t, c6row.source = .str t ∧ t.data.length = 100 ∧
      t.data = c6s.data.take 100) :=
  C6_source_truncation c6kvs c6row c6s (by decide) (by decide)

/-- C8: the scenario line with a string-typed `timestamp_ms` produces
exactly one inserted row with `ts` at epoch-ms 1700000000000 (which is
2023-11-14T22:13:20Z: the second conjunct evaluates that civil instant),
`id_str` "42", `lang` "en", the empty truncated source, and every other
optional column null; the record is read and not skipped. -/
theorem C8_scenario :
    process_files 10000 []
      [some ["\x7b\"timestamp_ms\": \"1700000000000\", \"id_str\": \"42\", \"lang\": \"en\"\x7d"]] =
      .ok ([⟨1700000000000, .str "42", c8row⟩], 1, 0, 1) ∧
    ParsedDT.toUtcMs ⟨2023, 11, 14, 22, 13, 20, 0⟩ = 1700000000000 := by decide

/-- C3, counterexample to the claim as stated: `timestamp_ms = 10^18` is
interpretable as an integer, yet no instant is extracted —
`datetime.fromtimestamp` rejects the year ≈ 31,690,708 epoch and the
`ValueError` propagates. -/
theorem C3_counterexample :
    pyInt (.int 1000000000000000000) = .ok 1000000000000000000 ∧
    parse_ts (PyVal.dict [("timestamp_ms", .int 1000000000000000000)]) =
      .error .valueError := by decide

/-- C3, amended: the timestamp-extraction cases.  The instant is modelled
in epoch milliseconds, so `some n` for a `timestamp_ms` interpretable as
the integer `n` is the instant `n / 1000` seconds since the Unix epoch,
UTC.  Case 1: within `|n| ≤ 4e12` — inside both the `datetime` year range
and the range where the float division of the source reproduces the
instant exactly — extraction succeeds with exactly that instant, whatever
`created_at` holds.  Case 2: an integer-interpretable `timestamp_ms`
whose epoch lies outside the year range 1..9999 raises instead of
extracting an instant.  Case 3: lacking `timestamp_ms`, a `created_at`
that parses in the fixed format yields its parse normalized to UTC
(`ParsedDT.toUtcMs`).  Case 4: with neither field the absence signal is
returned without raising. -/
theorem C3_parse_ts_cases :
    (∀ (kvs : List (String × PyVal)) (v : PyVal) (n : Int),
      (PyVal.dict kvs).getItem "timestamp_ms" = v → v.isNone = false → pyInt v = .ok n →
      n.natAbs ≤ 4000000000000 →
      parse_ts (PyVal.dict kvs) = .ok (some n)) ∧
    (∀ (kvs : List (String × PyVal)) (v : PyVal) (n : Int),
      (PyVal.dict kvs).getItem "timestamp_ms" = v → v.isNone = false → pyInt v = .ok n →
      (n < epochMsMin ∨ epochMsMax < n) →
      parse_ts (PyVal.dict kvs) = .error .valueError) ∧
    (∀ (kvs : List (String × PyVal)) (s : String) (p : ParsedDT),
      (PyVal.dict kvs).getItem "timestamp_ms" = PyVal.none →
      (PyVal.dict kvs).getItem "created_at" = .str s → strptimeTwitter s = some p →
      parse_ts (PyVal.dict kvs) = .ok (some p.toUtcMs)) ∧
    (∀ (kvs : List (String × PyVal)),
      (PyVal.dict kvs).getItem "timestamp_ms" = PyVal.none →
      ((PyVal.dict kvs).getItem "created_at").truthy = false →
      parse_ts (PyVal.dict kvs) = .ok Option.none) := by
  refine ⟨?_, ?_, ?_, ?_⟩
  · intro kvs v n h1 h2 h3 h4
    have hok : fromtimestampOk n = true := by
      simp only [fromtimestampOk, epochMsMin, epochMsMax, Bool.and_eq_true,
        decide_eq_true_eq]
      omega
    rw [parse_ts]
    simp only [getMethod_dict, exceptBindOk, h1, h2, Bool.false_eq_true, if_false, h3,
      exceptBindOk, hok, if_true]
    rfl
  · intro kvs v n h1 h2 h3 h4
    have hok : fromtimestampOk n = false := by
      simp only [epochMsMin, epochMsMax] at h4
      simp only [fromtimestampOk, epochMsMin, epochMsMax, Bool.and_eq_true,
        Bool.and_eq_false_iff, decide_eq_false_iff_not]
      omega
    rw [parse_ts]
    simp only [getMethod_dict, exceptBindOk, h1, h2, Bool.false_eq_true, if_false, h3,
      exceptBindOk, hok]
    rfl
  · intro kvs s p h1 h2 h3
    have hs : s ≠ "" := by
      intro he
      subst he
      have : strptimeTwitter "" = Option.none := by decide
      rw [this] at h3
      simp at h3
    rw [parse_ts]
    simp only [getMethod_dict, exceptBindOk, h1, h2]
    have ht : (PyVal.str s).truthy = true := by simp [PyVal.truthy, hs]
    simp only [PyVal.isNone, if_true, ht, h3]
    rfl
  · intro kvs h1 h2
    rw [parse_ts]
    simp only [getMethod_dict, exceptBindOk, h1, h2, PyVal.isNone, if_true,
      Bool.false_eq_true, if_false]
    rfl

/-- C3, witness: an in-range integer `timestamp_ms` wins over a malformed
`created_at`; an out-of-range epoch raises; a null `timestamp_ms` with a
well-formed `created_at` parses it; a record with neither field signals
absence. -/
theorem C3_witness :
    parse_ts (PyVal.dict [("timestamp_ms", .int 1700000000000),
      ("created_at", .str "garbage")]) = .ok (some 1700000000000) ∧
    parse_ts (PyVal.dict [("timestamp_ms", .str "1000000000000000000")]) =
      .error .valueError ∧
    parse_ts (PyVal.dict [("timestamp_ms", .none),
      ("created_at", .str "Tue Nov 14 22:13:20 +0000 2023")]) =
      .ok (some (ParsedDT.toUtcMs ⟨2023, 11, 14, 22, 13, 20, 0⟩)) ∧
    parse_ts (PyVal.dict [("lang", .str "en")]) = .ok Option.none :=
  ⟨C3_parse_ts_cases.1 _ (.int 1700000000000) 1700000000000 (by decide) (by decide)
     (by decide) (by decide),
   C3_parse_ts_cases.2.1 _ (.str "1000000000000000000") 1000000000000000000 (by decide)
     (by decide) (by decide) (by decide),
   C3_parse_ts_cases.2.2.1 _ "Tue Nov 14 22:13:20 +0000 2023" _ (by decide) (by decide)
     (by decide),
   C3_parse_ts_cases.2.2.2 _ (by decide) (by decide)⟩

/-- C1, counterexample to the claim as stated: a malformed `timestamp_ms`
(or `created_at`) does not route to "record skipped": the uncaught
`ValueError` aborts the whole chunk, even though a further valid line
follows. -/
theorem C1_counterexample :
    process_files 10000 []
      [some ["\x7b\"timestamp_ms\": \"x\"\x7d", "\x7b\"timestamp_ms\": 1, \"id\": 2\x7d"]] =
      .error .valueError ∧
    process_files 10000 [] [some ["\x7b\"created_at\": \"Mon Jan 01\"\x7d"]] =
      .error .valueError := by decide

/-- C1, amended: a present-but-malformed timestamp raises an error that
the worker loop does not catch, aborting the chunk (the rest of the lines
are never processed); the malformed-value outcome (a raised error) is
distinguishable from the field-absent outcome (the absence signal), which
is counted as skipped with processing continuing. -/
theorem C1_malformed_timestamp_aborts :
    (∀ (bs : Nat) (st : WState) (l : String) (obj : PyVal) (e : PyErr),
      json_loads (pyStrip l) = some obj → parse_ts obj = .error e →
      processLine bs st l = .error e) ∧
    (∀ (bs : Nat) (st : WState) (l : String) (ls : List String) (e : PyErr),
      processLine bs st l = .error e → processLines bs st (l :: ls) = .error e) ∧
    (∀ (bs : Nat) (st : WState) (l : String) (obj : PyVal),
      json_loads (pyStrip l) = some obj → parse_ts obj = .ok Option.none →
      processLine bs st l =
        .ok { st with read_count := st.read_count + 1, skipped := st.skipped + 1 }) := by
  refine ⟨?_, ?_, ?_⟩
  · intro bs st l obj e h1 h2
    have hne : ¬pyStrip l = "" := by
      intro hl
      rw [hl, show json_loads "" = Option.none from by decide] at h1
      simp at h1
    rw [processLine]
    simp only [if_neg hne, h1, h2]
    rfl
  · intro bs st l ls e h
    rw [processLines, h]
    rfl
  · intro bs st l obj h1 h2
    have hne : ¬pyStrip l = "" := by
      intro hl
      rw [hl, show json_loads "" = Option.none from by decide] at h1
      simp at h1
    rw [processLine]
    simp only [if_neg hne, h1, h2]
    rfl

/-- C1, witness: a malformed `timestamp_ms` aborts the line and the whole
chunk; a record with no timestamp fields is skipped and counted. -/
theorem C1_witness :
    processLine 10000 ⟨[], [], 0, 0, 0⟩ "\x7b\"timestamp_ms\": \"x\"\x7d" =
      .error .valueError ∧
    processLines 10000 ⟨[], [], 0, 0, 0⟩
      ["\x7b\"timestamp_ms\": \"x\"\x7d", "\x7b\"a\": 1\x7d"] = .error .valueError ∧
    processLine 10000 ⟨[], [], 0, 0, 0⟩ "\x7b\"a\": 1\x7d" = .ok ⟨[], [], 0, 1, 1⟩ :=
  ⟨C1_malformed_timestamp_aborts.1 10000 ⟨[], [], 0, 0, 0⟩ _
      (PyVal.dict [("timestamp_ms", .str "x")]) _ (by decide) (by decide),
   C1_malformed_timestamp_aborts.2.1 10000 ⟨[], [], 0, 0, 0⟩ _ _ _
     (C1_malformed_timestamp_aborts.1 10000 ⟨[], [], 0, 0, 0⟩ _
       (PyVal.dict [("timestamp_ms", .str "x")]) _ (by decide) (by decide)),
   C1_malformed_timestamp_aborts.2.2 10000 ⟨[], [], 0, 0, 0⟩ _
     (PyVal.dict [("a", .int 1)]) (by decide) (by decide)⟩

/-- C7: identifier resolution prefers a truthy string `id_str`; a falsy
(or absent) `id_str` falls back to the stringified `id`; a record whose
resolved identifier is empty is skipped with the read counter incremented;
the `\x7b"id": 7\x7d` line is skipped (no timestamp) with read-count 1 and
insert-count 0. -/
theorem C7_identifier_resolution :
    (∀ (kvs : List (String × PyVal)) (s : String),
      (PyVal.dict kvs).getItem "id_str" = .str s → s ≠ "" →
      resolve_id (PyVal.dict kvs) = .ok (.str s)) ∧
    (∀ (kvs : List (String × PyVal)) (n : Int),
      ((PyVal.dict kvs).getItem "id_str").truthy = false →
      (PyVal.dict kvs).hasKey "id" = true → (PyVal.dict kvs).getItem "id" = .int n →
      resolve_id (PyVal.dict kvs) = .ok (.str (toString n))) ∧
    (∀ (bs : Nat) (st : WState) (l : String) (obj : PyVal) (ts : Int) (idv : PyVal),
      json_loads (pyStrip l) = some obj → parse_ts obj = .ok (some ts) →
      resolve_id obj = .ok idv → idv.truthy = false →
      processLine bs st l =
        .ok { st with read_count := st.read_count + 1, skipped := st.skipped + 1 }) ∧
    process_files 10000 [] [some ["\x7b\"id\": 7\x7d"]] = .ok ([], 0, 1, 1) := by
  refine ⟨?_, ?_, ?_, by decide⟩
  · intro kvs s h1 h2
    have ht : (PyVal.str s).truthy = true := by simp [PyVal.truthy, h2]
    rw [resolve_id]
    simp only [getMethod_dict, exceptBindOk, h1, ht, if_true]
    rfl
  · intro kvs n h1 h2 h3
    rw [resolve_id]
    simp only [getMethod_dict, exceptBindOk, h1, Bool.false_eq_true, if_false,
      getMethodD_dict, lookup_of_hasKey h2, h3, Option.getD_some]
    rfl
  · intro bs st l obj ts idv h1 h2 h3 h4
    have hne : ¬pyStrip l = "" := by
      intro hl
      rw [hl, show json_loads "" = Option.none from by decide] at h1
      simp at h1
    rw [processLine]
    simp only [if_neg hne, h1, h2, exceptBindOk, h3, h4, Bool.not_false, if_true]
    rfl

/-- C7, witness: a non-empty `id_str` wins; `id` 7 stringifies to "7"; a
record with a timestamp but empty resolved identifier is skipped. -/
theorem C7_witness :
    resolve_id (PyVal.dict [("id_str", .str "42"), ("id", .int 9)]) = .ok (.str "42") ∧
    resolve_id (PyVal.dict [("id", .int 7)]) = .ok (.str "7") ∧
    processLine 10000 ⟨[], [], 0, 0, 0⟩ "\x7b\"timestamp_ms\": 1\x7d" =
      .ok ⟨[], [], 0, 1, 1⟩ :=
  ⟨C7_identifier_resolution.1 _ "42" (by decide) (by decide),
   C7_identifier_resolution.2.1 _ 7 (by decide) (by decide) (by decide),
   C7_identifier_resolution.2.2.1 10000 ⟨[], [], 0, 0, 0⟩ _
     (PyVal.dict [("timestamp_ms", .int 1)]) 1 (.str "") (by decide) (by decide)
     (by decide) (by decide)⟩

/-- C10: with `id_str` falsy and `id` present but null, the fallback
stringifies the null to the non-empty string "None", so the record is
inserted with identifier "None"; the empty-identifier skip only fires
when `id` is entirely absent (the default empty string) or stringifies to
an empty string. -/
theorem C10_null_id_stringifies :
    (∀ (kvs : List (String × PyVal)),
      ((PyVal.dict kvs).getItem "id_str").truthy = false →
      (PyVal.dict kvs).hasKey "id" = true → (PyVal.dict kvs).getItem "id" = PyVal.none →
      resolve_id (PyVal.dict kvs) = .ok (.str "None") ∧ (PyVal.str "None").truthy = true) ∧
    (∀ (kvs : List (String × PyVal)),
      ((PyVal.dict kvs).getItem "id_str").truthy = false →
      (PyVal.dict kvs).hasKey "id" = false →
      resolve_id (PyVal.dict kvs) = .ok (.str "") ∧ (PyVal.str "").truthy = false) ∧
    process_files 10000 [] [some ["\x7b\"timestamp_ms\": 1, \"id\": null\x7d"]] =
      .ok ([⟨1, .str "None", c10row⟩], 1, 0, 1) := by
  refine ⟨?_, ?_, by decide⟩
  · intro kvs h1 h2 h3
    refine ⟨?_, by decide⟩
    rw [resolve_id]
    simp only [getMethod_dict, exceptBindOk, h1, Bool.false_eq_true, if_false,
      getMethodD_dict, lookup_of_hasKey h2, h3, Option.getD_some]
    rfl
  · intro kvs h1 h2
    refine ⟨?_, by decide⟩
    rw [resolve_id]
    simp only [getMethod_dict, exceptBindOk, h1, Bool.false_eq_true, if_false,
      getMethodD_dict, lookup_of_not_hasKey h2, Option.getD_none]
    rfl

/-- C10, witness: `id` null resolves to "None" (truthy); `id` absent
resolves to the empty string (falsy, skipped). -/
theorem C10_witness :
    (resolve_id (PyVal.dict [("id", PyVal.none)]) = .ok (.str "None") ∧
      (PyVal.str "None").truthy = true) ∧
    (resolve_id (PyVal.dict [("lang", .str "en")]) = .ok (.str "") ∧
      (PyVal.str "").truthy = false) :=
  ⟨C10_null_id_stringifies.1 _ (by decide) (by decide) (by decide),
   C10_null_id_stringifies.2.1 _ (by decide) (by decide)⟩

/-- Value of `chunkLoop` on the empty list is empty, whatever the fuel. -/
theorem chunkLoop_nil {α : Type} (fuel cs : Nat) :
    chunkLoop fuel cs ([] : List α) = [] := by
  cases fuel <;> rfl

/-- Concatenating the chunks restores the original list. -/
theorem chunkLoop_flatten {α : Type} (cs : Nat) (hcs : 0 < cs) :
    ∀ (fuel : Nat) (l : List α), l.length ≤ fuel → (chunkLoop fuel cs l).flatten = l := by
  intro fuel
  induction fuel with
  | zero =>
    intro l hl
    cases l with
    | nil => rfl
    | cons a as => simp at hl
  | succ n ih =>
    intro l hl
    cases l with
    | nil => rfl
    | cons a as =>
      have hstep : chunkLoop (n + 1) cs (a :: as) =
          (a :: as).take cs :: chunkLoop n cs ((a :: as).drop cs) := rfl
      rw [hstep, List.flatten_cons, ih ((a :: as).drop cs)
          (by rw [List.length_drop]; simp only [List.length_cons] at hl ⊢; omega),
        List.take_append_drop]

/-- Every chunk has at most `cs` elements and is non-empty; every chunk
except possibly the last has exactly `cs` elements. -/
theorem chunkLoop_sizes {α : Type} (cs : Nat) (hcs : 0 < cs) :
    ∀ (fuel : Nat) (l : List α), l.length ≤ fuel →
      (∀ c ∈ (chunkLoop fuel cs l).dropLast, c.length = cs) ∧
      (∀ c ∈ chunkLoop fuel cs l, c.length ≤ cs ∧ c ≠ []) := by
  intro fuel
  induction fuel with
  | zero =>
    intro l hl
    cases l with
    | nil => simp [chunkLoop]
    | cons a as => simp at hl
  | succ n ih =>
    intro l hl
    cases l with
    | nil => simp [chunkLoop]
    | cons a as =>
      have hstep : chunkLoop (n + 1) cs (a :: as) =
          (a :: as).take cs :: chunkLoop n cs ((a :: as).drop cs) := rfl
      have hdl : ((a :: as).drop cs).length ≤ n := by
        rw [List.length_drop]
        simp only [List.length_cons] at hl ⊢
        omega
      obtain ⟨ih1, ih2⟩ := ih ((a :: as).drop cs) hdl
      constructor
      · intro c hc
        rw [hstep] at hc
        by_cases hrest : chunkLoop n cs ((a :: as).drop cs) = []
        · rw [hrest] at hc
          simp at hc
        · rw [List.dropLast_cons_of_ne_nil hrest] at hc
          rcases List.mem_cons.mp hc with hc1 | hc2
          · subst hc1
            have hdne : (a :: as).drop cs ≠ [] := by
              intro hd
              rw [hd, chunkLoop_nil] at hrest
              exact hrest rfl
            have hlen : cs < (a :: as).length := by
              by_contra hle
              exact hdne (List.drop_eq_nil_of_le (by omega))
            rw [List.length_take]
            omega
          · exact ih1 c hc2
      · intro c hc
        rw [hstep] at hc
        rcases List.mem_cons.mp hc with hc1 | hc2
        · subst hc1
          refine ⟨by rw [List.length_take]; omega, ?_⟩
          cases cs with
          | zero => omega
          | succ m => simp [List.take]
        · exact ih2 c hc2

/-- C4: the partitioner splits the file list into contiguous chunks whose
concatenation is the original list, every chunk except possibly the last
has exactly the configured size, no chunk is larger or empty; the
worker-count clamp never exceeds the number of chunks and is the number
of chunks whenever more workers are configured; 45 files at chunk size 20
give sizes [20, 20, 5] and a configured worker count of 8 is clamped
to 3. -/
theorem C4_partitioner {α : Type} (cfg nw : Nat) (files : List α)
    (hcfg : 0 < cfg) (hne : files ≠ []) :
    (make_chunks cfg files).flatten = files ∧
    (∀ c ∈ (make_chunks cfg files).dropLast, c.length = cfg) ∧
    (∀ c ∈ make_chunks cfg files, c.length ≤ cfg ∧ c ≠ []) ∧
    clampWorkers nw (make_chunks cfg files) ≤ (make_chunks cfg files).length ∧
    ((make_chunks cfg files).length ≤ nw →
      clampWorkers nw (make_chunks cfg files) = (make_chunks cfg files).length) ∧
    (make_chunks 20 (List.range 45)).map List.length = [20, 20, 5] ∧
    clampWorkers 8 (make_chunks 20 (List.range 45)) = 3 := by
  have hlpos : 0 < files.length := List.length_pos.mpr hne
  have hmin : 0 < min cfg files.length := by omega
  refine ⟨chunkLoop_flatten _ hmin _ _ le_rfl, ?_, ?_, ?_, ?_, by decide, by decide⟩
  · intro c hc
    rcases le_or_lt cfg files.length with hle | hgt
    · have := (chunkLoop_sizes _ hmin files.length files le_rfl).1 c
      rw [make_chunks] at hc
      rw [Nat.min_eq_left hle] at this hc
      exact this hc
    · have hone : make_chunks cfg files = [files] := by
        rw [make_chunks, Nat.min_eq_right (by omega)]
        cases files with
        | nil => exact absurd rfl hne
        | cons a as =>
          have hstep : chunkLoop (a :: as).length (a :: as).length (a :: as) =
              (a :: as).take (a :: as).length ::
                chunkLoop ((a :: as).length - 1) (a :: as).length
                  ((a :: as).drop (a :: as).length) := by
            cases h : (a :: as).length with
            | zero => simp at h
            | succ m => rfl
          rw [hstep, List.drop_length, chunkLoop_nil, List.take_length]
      rw [hone] at hc
      simp at hc
  · intro c hc
    have := (chunkLoop_sizes _ hmin files.length files le_rfl).2 c hc
    exact ⟨le_trans this.1 (Nat.min_le_left _ _), this.2⟩
  · exact Nat.min_le_right _ _
  · intro h
    exact Nat.min_eq_right h

/-- C4, witness: the partitioning properties at 45 files and chunk
size 20. -/
theorem C4_witness :
    (make_chunks 20 (List.range 45)).flatten = List.range 45 ∧
    (∀ c ∈ (make_chunks 20 (List.range 45)).dropLast, c.length = 20) ∧
    (∀ c ∈ make_chunks 20 (List.range 45), c.length ≤ 20 ∧ c ≠ []) ∧
    clampWorkers 8 (make_chunks 20 (List.range 45)) ≤
      (make_chunks 20 (List.range 45)).length ∧
    ((make_chunks 20 (List.range 45)).length ≤ 8 →
      clampWorkers 8 (make_chunks 20 (List.range 45)) =
        (make_chunks 20 (List.range 45)).length) ∧
    (make_chunks 20 (List.range 45)).map List.length = [20, 20, 5] ∧
    clampWorkers 8 (make_chunks 20 (List.range 45)) = 3 :=
  C4_partitioner 20 8 (List.range 45) (by decide) (by decide)

/-! ## C9: worker counter invariants.

The per-line, per-file and per-chunk lemmas below track the counters and
the set of conflict keys through the worker loop, first with
inequalities that hold for every run, then exactly under a no-duplicates
hypothesis. -/

